import Mathlib

/-!
# Verification of the namespaced plan storage engine

A shallow embedding, in Lean 4, of the storage engine implemented in
`src/storage.ts` of the Software-planning-mcp repository: the data model
(goals, implementation plans, todos), the namespaced on-disk layout, the
V1-to-V2 legacy migration with rollback, and the record-level CRUD
operations.  Filesystem state is passed explicitly; every fallible
operation returns `Except`; timestamps are the millisecond readings of the
JavaScript clock (`Date.now()` / `new Date()`), one reading per engine
operation, as `Nat`.
-/

namespace PlanStorage

/-! ## Association lists

JavaScript objects used as string-keyed maps (`data.goals`, `data.plans`,
JSON objects) are insertion-ordered association lists.  `lookupA` is
property read, `setA` is property write (overwrite in place, else append),
`removeA` is property deletion. -/

def lookupA {α : Type} : List (String × α) → String → Option α
  | [], _ => none
  | (k', v) :: rest, k => if k' = k then some v else lookupA rest k

def setA {α : Type} : List (String × α) → String → α → List (String × α)
  | [], k, v => [(k, v)]
  | (k', v') :: rest, k, v =>
    if k' = k then (k, v) :: rest else (k', v') :: setA rest k v

def removeA {α : Type} : List (String × α) → String → List (String × α)
  | [], _ => []
  | (k', v') :: rest, k =>
    if k' = k then removeA rest k else (k', v') :: removeA rest k

/-! ## Decimal rendering of natural numbers

The engine derives identifiers from `Date.now().toString()`; in the model
this is `Nat.repr`.  Uniqueness of identifiers (claim C8) needs that
`Nat.repr` is injective, proved here against the core definition
(`Nat.toDigitsCore`). -/

/-- The list of decimal digit characters of `n`, most significant first,
by structural division. -/
def decDigits (n : Nat) : List Char :=
  if h : n < 10 then [Nat.digitChar n]
  else
    have : n / 10 < n := Nat.div_lt_self (by omega) (by omega)
    decDigits (n / 10) ++ [Nat.digitChar (n % 10)]

/-- Reading the digit list back as a number. -/
def decVal (l : List Char) : Nat :=
  l.foldl (fun a c => 10 * a + (c.toNat - 48)) 0

/-! ## Data model

The record types of `types.ts`, exactly as consumed by `storage.ts` and
described in spec §3.  JavaScript string-keyed objects are insertion-ordered
association lists. -/

structure Goal where
  id : String
  description : String
  createdAt : String
deriving Repr, DecidableEq

structure Todo where
  id : String
  title : String
  description : String
  complexity : Int
  codeExample : Option String
  isComplete : Bool
  createdAt : String
  updatedAt : String
deriving Repr, DecidableEq

structure ImplementationPlan where
  goalId : String
  todos : List Todo
  updatedAt : String
deriving Repr, DecidableEq

structure StorageData where
  goals : List (String × Goal)
  plans : List (String × ImplementationPlan)
deriving Repr, DecidableEq

/-- `{ goals: {}, plans: {} }`. -/
def emptyData : StorageData := ⟨[], []⟩

/-- One clock reading, `Date.now()` in milliseconds.  All `new Date()` /
`Date.now()` calls inside a single engine operation observe the same
reading. -/
abbrev Millis := Nat

/-- Model of `new Date(ms).toISOString()`.  The real rendering is an
injective function of the millisecond value; no property below depends on
anything but that injectivity, so the reading is rendered by its decimal
string. -/
def toISOString (now : Millis) : String := Nat.repr now

/-! ## JSON trees

`JSON.stringify` / `JSON.parse` are modeled at the level of JSON trees: the
record file holds the tree produced by serialization, and parsing a tree
is the identity.  `JSON.stringify` omits object keys whose value is
`undefined` (the absent `codeExample` field of a `Todo`). -/

inductive Json : Type where
  | str : String → Json
  | num : Int → Json
  | bool : Bool → Json
  | null : Json
  | arr : List Json → Json
  | obj : List (String × Json) → Json

/-- Serialization of a `Goal`, key order as in the object literal of
`createGoal` (storage.ts lines 511-516). -/
def encodeGoal (g : Goal) : Json :=
  .obj [("id", .str g.id), ("description", .str g.description),
        ("createdAt", .str g.createdAt)]

/-- Serialization of a `Todo`, key order as in the object literal of
`addTodo` (storage.ts lines 556-565); an absent `codeExample` is omitted
by `JSON.stringify`. -/
def encodeTodo (t : Todo) : Json :=
  .obj ([("id", .str t.id), ("title", .str t.title),
         ("description", .str t.description), ("complexity", .num t.complexity)]
    ++ (match t.codeExample with
        | some c => [("codeExample", Json.str c)]
        | none => [])
    ++ [("isComplete", .bool t.isComplete), ("createdAt", .str t.createdAt),
        ("updatedAt", .str t.updatedAt)])

def encodePlan (p : ImplementationPlan) : Json :=
  .obj [("goalId", .str p.goalId), ("todos", .arr (p.todos.map encodeTodo)),
        ("updatedAt", .str p.updatedAt)]

def encodeStorageData (d : StorageData) : Json :=
  .obj [("goals", .obj (d.goals.map (fun kv => (kv.1, encodeGoal kv.2)))),
        ("plans", .obj (d.plans.map (fun kv => (kv.1, encodePlan kv.2))))]

def getField : Json → String → Option Json
  | .obj kvs, k => lookupA kvs k
  | _, _ => none

def asStr : Option Json → Option String
  | some (.str s) => some s
  | _ => none

def asNum : Option Json → Option Int
  | some (.num n) => some n
  | _ => none

def asBool : Option Json → Option Bool
  | some (.bool b) => some b
  | _ => none

/-- Reading a `Goal` back from the record file. -/
def decodeGoal (j : Json) : Option Goal :=
  match asStr (getField j "id"), asStr (getField j "description"),
      asStr (getField j "createdAt") with
  | some i, some d, some c => some ⟨i, d, c⟩
  | _, _, _ => none

/-- Reading a `Todo` back from the record file; a missing `codeExample`
key decodes to the absent value. -/
def decodeTodo (j : Json) : Option Todo :=
  match asStr (getField j "id"), asStr (getField j "title"),
      asStr (getField j "description"), asNum (getField j "complexity"),
      asBool (getField j "isComplete"), asStr (getField j "createdAt"),
      asStr (getField j "updatedAt") with
  | some i, some ti, some de, some cx, some ic, some ca, some ua =>
    (match getField j "codeExample" with
     | none => some ⟨i, ti, de, cx, none, ic, ca, ua⟩
     | some (.str ce) => some ⟨i, ti, de, cx, some ce, ic, ca, ua⟩
     | some _ => none)
  | _, _, _, _, _, _, _ => none

def decodeListWith {α : Type} (dec : Json → Option α) : List Json → Option (List α)
  | [] => some []
  | j :: rest =>
    match dec j, decodeListWith dec rest with
    | some a, some l => some (a :: l)
    | _, _ => none

def decodePairsWith {α : Type} (dec : Json → Option α) :
    List (String × Json) → Option (List (String × α))
  | [] => some []
  | (k, j) :: rest =>
    match dec j, decodePairsWith dec rest with
    | some a, some l => some ((k, a) :: l)
    | _, _ => none

def decodePlan (j : Json) : Option ImplementationPlan :=
  match asStr (getField j "goalId"), getField j "todos",
      asStr (getField j "updatedAt") with
  | some g, some (.arr ts), some u =>
    (match decodeListWith decodeTodo ts with
     | some todos => some ⟨g, todos, u⟩
     | none => none)
  | _, _, _ => none

def decodeStorageData (j : Json) : Option StorageData :=
  match getField j "goals", getField j "plans" with
  | some (.obj gs), some (.obj ps) =>
    (match decodePairsWith decodeGoal gs, decodePairsWith decodePlan ps with
     | some goals, some plans => some ⟨goals, plans⟩
     | _, _ => none)
  | _, _ => none

/-! ## Plan-name validation (`sanitizePlanName`, storage.ts lines 57-73) -/

def isAlphaNum (c : Char) : Bool :=
  ('a' ≤ c && c ≤ 'z') || ('A' ≤ c && c ≤ 'Z') || ('0' ≤ c && c ≤ '9')

def isPlanNameChar (c : Char) : Bool := isAlphaNum c || c = '-' || c = '_'

/-- `validPlanRegex.test(planName)` for `/^[a-zA-Z0-9][a-zA-Z0-9\-_]*$/`. -/
def validPlanName (s : String) : Bool :=
  match s.data with
  | [] => false
  | c :: cs => isAlphaNum c && cs.all isPlanNameChar

/-- `planName.includes('..')`: scan for two consecutive dots. -/
def hasDotDot : List Char → Bool
  | [] => false
  | [_] => false
  | c :: c' :: rest => (c = '.' && c' = '.') || hasDotDot (c' :: rest)

/-- The unsafe-character check of `sanitizePlanName`:
`includes('..') || includes('/') || includes('\\') || includes('\0')`. -/
def containsUnsafe (s : String) : Bool :=
  hasDotDot s.data || s.data.contains '/' || s.data.contains '\\' ||
    s.data.contains (Char.ofNat 0)

/-- storage.ts lines 57-73: falsy or regex-rejected names fall back to
`'main'`, as do names with unsafe characters; safe names pass through. -/
def sanitizePlanName (s : String) : String :=
  if s.isEmpty || !validPlanName s then "main"
  else if containsUnsafe s then "main"
  else s

/-! ## On-disk layout (spec §6, storage.ts `updatePaths`) -/

/-- A derived human-readable document.  The generators (storage.ts lines
428-509) are pure projections of the active plan name and the record
snapshot; no claim inspects the rendered text, so a document is modeled by
the projection arguments it was rendered from. -/
structure MdDoc where
  planName : String
  snapshot : StorageData

/-- Content of one file the engine touches. -/
inductive FileContent : Type where
  | json : Json → FileContent
  | doc : MdDoc → FileContent

/-- The three per-namespace files: `data.json`, `plan.md`, `tasks.md`.
`none` means the file does not exist. -/
structure DirFiles where
  dataJson : Option FileContent
  planMd : Option FileContent
  tasksMd : Option FileContent

def emptyDirFiles : DirFiles := ⟨none, none, none⟩

/-- Names for the three file slots, in `filesToMigrate` order. -/
inductive FileId : Type where
  | dataJson
  | planMd
  | tasksMd
deriving Repr, DecidableEq

def getSlot (d : DirFiles) : FileId → Option FileContent
  | .dataJson => d.dataJson
  | .planMd => d.planMd
  | .tasksMd => d.tasksMd

def setSlot (d : DirFiles) : FileId → Option FileContent → DirFiles
  | .dataJson, v => {d with dataJson := v}
  | .planMd, v => {d with planMd := v}
  | .tasksMd, v => {d with tasksMd := v}

/-- The namespace root `.cursor/softwareplan`.  `present` is whether the
directory exists; `rootFiles` are the files directly at the root (the
legacy V1 layout); `subdirs` are its subdirectories (plan namespaces and,
after migration, `v1-backup`) in creation order. -/
structure BaseDir where
  present : Bool
  rootFiles : DirFiles
  subdirs : List (String × DirFiles)

def getDir (b : BaseDir) (name : String) : Option DirFiles :=
  lookupA b.subdirs name

def setDir (b : BaseDir) (name : String) (d : DirFiles) : BaseDir :=
  {b with subdirs := setA b.subdirs name d}

/-- `fs.mkdir(path, { recursive: true })` for a subdirectory of the root:
creates the root and the subdirectory when missing, succeeds when they
already exist. -/
def mkdirSub (b : BaseDir) (name : String) : BaseDir :=
  { present := true
    rootFiles := b.rootFiles
    subdirs :=
      if (lookupA b.subdirs name).isSome then b.subdirs
      else b.subdirs ++ [(name, emptyDirFiles)] }

/-- `fs.rmdir(path, { recursive: true })`. -/
def removeDir (b : BaseDir) (name : String) : BaseDir :=
  {b with subdirs := removeA b.subdirs name}

/-! ## V1-to-V2 legacy migration (storage.ts lines 157-268)

The individual filesystem calls of the migration may fail; a fault
assignment picks which calls fail.  A faulted call leaves the filesystem
unchanged. -/

structure MigFaults where
  /-- `fs.mkdir(backupDir)` fails. -/
  mkdirBackup : Bool
  /-- `fs.mkdir(mainPlanDir)` fails. -/
  mkdirMain : Bool
  /-- backing up file `f` (`fs.rename` into `v1-backup`) fails. -/
  rename : FileId → Bool
  /-- copying file `f` (`fs.copyFile` into `main`) fails. -/
  copy : FileId → Bool
  /-- the rollback's `fs.rmdir` of `main` fails. -/
  rmdirMain : Bool
  /-- the rollback's restoring `fs.rename` of file `f` fails. -/
  restore : FileId → Bool

def noFaults : MigFaults :=
  ⟨false, false, fun _ => false, fun _ => false, false, fun _ => false⟩

/-- `isV1Project` (lines 160-168): the legacy record file exists at the
namespace root. -/
def isV1Project (b : BaseDir) : Bool :=
  b.rootFiles.dataJson.isSome

/-- `rollbackMigration` (lines 243-268): best-effort: remove the `main`
directory (failure ignored), then move each backed-up file back to its
legacy location (individual failures logged and swallowed). -/
def rollbackMigration (flt : MigFaults) (ops : List FileId) (b : BaseDir) : BaseDir :=
  let b1 := if flt.rmdirMain then b else removeDir b "main"
  ops.foldl (fun acc f =>
    if flt.restore f then acc
    else
      match getDir acc "v1-backup" with
      | none => acc
      | some bd =>
        match getSlot bd f with
        | none => acc
        | some content =>
          let acc1 := setDir acc "v1-backup" (setSlot bd f none)
          {acc1 with rootFiles := setSlot acc1.rootFiles f (some content)}) b1

/-- `filesToMigrate` (lines 184-188): the record file is required, the two
derived documents optional. -/
def filesToMigrate : List (FileId × Bool) :=
  [(.dataJson, true), (.planMd, false), (.tasksMd, false)]

/-- Step 1 of `migrateV1ToV2` (lines 197-213): move each legacy file into
the backup directory, recording each successful move.  A failure for the
required record file aborts the whole loop (`none`); a failure for an
optional file only skips it. -/
def backupPhase (flt : MigFaults) :
    List (FileId × Bool) → BaseDir → BaseDir × Option (List FileId)
  | [], b => (b, some [])
  | (f, required) :: rest, b =>
    match getSlot b.rootFiles f, flt.rename f, getDir b "v1-backup" with
    | some content, false, some bd =>
      let b1 := setDir {b with rootFiles := setSlot b.rootFiles f none}
        "v1-backup" (setSlot bd f (some content))
      (match backupPhase flt rest b1 with
       | (b2, some ops) => (b2, some (f :: ops))
       | (b2, none) => (b2, none))
    | _, _, _ =>
      if required then (b, none) else backupPhase flt rest b

/-- Step 2 of `migrateV1ToV2` (lines 215-229): copy each backed-up file
into the `main` directory; on the first copy failure run the rollback over
the full backup-operation list and abort.  Result: (filesystem, success,
rollback-ran). -/
def copyPhase (flt : MigFaults) (allOps : List FileId) :
    List FileId → BaseDir → BaseDir × Bool × Bool
  | [], b => (b, true, false)
  | f :: rest, b =>
    match getDir b "v1-backup", getDir b "main" with
    | some bd, some md =>
      (match getSlot bd f, flt.copy f with
       | some content, false =>
         copyPhase flt allOps rest (setDir b "main" (setSlot md f (some content)))
       | _, _ => (rollbackMigration flt allOps b, false, true))
    | _, _ => (rollbackMigration flt allOps b, false, true)

structure MigResult where
  fs : BaseDir
  success : Bool
  rollbackRan : Bool

/-- `migrateV1ToV2` (lines 174-238): create the backup and `main`
directories, back up the legacy files, copy them into `main`.  A copy
failure triggers the rollback before the failure is rethrown; every other
failure is rethrown by the outer catch without rollback. -/
def migrateV1ToV2 (flt : MigFaults) (b : BaseDir) : MigResult :=
  if flt.mkdirBackup then ⟨b, false, false⟩
  else
    let b1 := mkdirSub b "v1-backup"
    if flt.mkdirMain then ⟨b1, false, false⟩
    else
      let b2 := mkdirSub b1 "main"
      match backupPhase flt filesToMigrate b2 with
      | (b3, none) => ⟨b3, false, false⟩
      | (b3, some ops) =>
        match copyPhase flt ops ops b3 with
        | (b4, ok, rb) => ⟨b4, ok, rb⟩

/-- The migration phase of `initialize` (storage.ts lines 374-377): the
migration runs only when the V1 layout is detected. -/
def migrationStep (flt : MigFaults) (b : BaseDir) : BaseDir :=
  if isV1Project b then (migrateV1ToV2 flt b).fs else b

/-! ## The storage engine (storage.ts class `Storage`) -/

structure StorageState where
  currentPlan : String
  data : StorageData
  base : BaseDir

/-- `listPlans` (lines 273-288): the subdirectories of the namespace root,
excluding the reserved backup directory, sorted ascending; an unreadable
root yields the empty list. -/
def listPlans (b : BaseDir) : List String :=
  if b.present then
    ((b.subdirs.map (fun e => e.1)).filter (fun n => n ≠ "v1-backup")).mergeSort
      (fun a b => decide (a ≤ b))
  else []

/-- `generatePlanMarkdown` (lines 428-464): a pure projection of the plan
name and record snapshot (rendered text not modeled, see `MdDoc`). -/
def generatePlanMarkdown (planName : String) (d : StorageData) : MdDoc :=
  ⟨planName, d⟩

/-- `generateTasksMarkdown` (lines 466-509): likewise a pure projection. -/
def generateTasksMarkdown (planName : String) (d : StorageData) : MdDoc :=
  ⟨planName, d⟩

/-- `generateMarkdownFiles` (lines 411-426): skipped entirely when the
record has no goals; otherwise both documents are rewritten wholesale. -/
def generateMarkdownFiles (planName : String) (d : StorageData) (files : DirFiles) : DirFiles :=
  if d.goals.isEmpty then files
  else
    { files with
      planMd := some (.doc (generatePlanMarkdown planName d))
      tasksMd := some (.doc (generateTasksMarkdown planName d)) }

/-- `save` (lines 400-409): serialize the record into the active plan
directory's `data.json`, then regenerate the derived documents.  Writing
into a missing directory fails. -/
def save (st : StorageState) : Except String StorageState :=
  match getDir st.base st.currentPlan with
  | none => .error "IOFailure: plan directory missing"
  | some d =>
    let d1 := {d with dataJson := some (.json (encodeStorageData st.data))}
    let d2 := generateMarkdownFiles st.currentPlan st.data d1
    .ok {st with base := setDir st.base st.currentPlan d2}

/-- `initialize` (lines 369-398): reset the in-memory record to empty
first, run the legacy migration when the legacy record file exists, ensure
the plan directory exists, then load the record file, or write a fresh
empty one when it cannot be read.  A record file holding JSON that is not
a record would be adopted untyped by the JavaScript code; that state is
not representable here and surfaces as an error (no engine operation ever
writes such a file). -/
def initStorage (flt : MigFaults) (st : StorageState) : Except String StorageState :=
  let st1 : StorageState := {st with data := emptyData}
  let afterMig : Except String StorageState :=
    if isV1Project st1.base then
      let r := migrateV1ToV2 flt st1.base
      if r.success then .ok {st1 with base := r.fs}
      else .error "Migration failed"
    else .ok st1
  match afterMig with
  | .error e => .error e
  | .ok st2 =>
    let b := mkdirSub st2.base st2.currentPlan
    match getDir b st2.currentPlan with
    | none => .error "unreachable: plan directory was just created"
    | some d =>
      match d.dataJson with
      | some (.json j) =>
        (match decodeStorageData j with
         | some dat => .ok {st2 with base := b, data := dat}
         | none => .error "unrepresentable: record file holds non-record JSON")
      | some (.doc _) => .error "unrepresentable: record file holds non-record JSON"
      | none => save {st2 with base := b}

/-- `setActivePlan` (lines 347-367): reject unsafe names, require the name
to be listed, then switch the active-plan pointer (re-sanitized by
`updatePaths`) and reload via `initialize`. -/
def setActivePlan (flt : MigFaults) (st : StorageState) (planName : String) :
    Except String StorageState :=
  if sanitizePlanName planName ≠ planName then
    .error ("Invalid plan name: " ++ planName)
  else if planName ∈ listPlans st.base then
    initStorage flt {st with currentPlan := sanitizePlanName planName}
  else
    .error ("Plan '" ++ planName ++ "' does not exist.")

/-- `createNewPlan` (lines 293-342): reject unsafe names, fail when the
directory already exists, otherwise create it and write an initial record,
optionally seeded with one goal/plan pair. -/
def createNewPlan (st : StorageState) (planName : String) (goal : Option String)
    (now : Millis) : Except String StorageState :=
  if sanitizePlanName planName ≠ planName then
    .error ("Invalid plan name: " ++ planName)
  else
    match getDir st.base planName with
    | some _ => .error ("Plan '" ++ planName ++ "' already exists.")
    | none =>
      let b := mkdirSub st.base planName
      let d : StorageData :=
        match goal with
        | none => emptyData
        | some gdesc =>
          let gid := Nat.repr now
          ⟨[(gid, ⟨gid, gdesc, toISOString now⟩)], [(gid, ⟨gid, [], toISOString now⟩)]⟩
      match getDir b planName with
      | none => .error "unreachable: plan directory was just created"
      | some files =>
        .ok {st with
          base := setDir b planName
            {files with dataJson := some (.json (encodeStorageData d))}}

/-! ## Record-level CRUD (storage.ts lines 511-606)

These operate on the in-memory record; the full engine operations persist
via `save` afterwards. -/

def getPlan (d : StorageData) (goalId : String) : Option ImplementationPlan :=
  lookupA d.plans goalId

/-- Store an updated plan back into the record: the in-place mutation of
the object `this.data.plans[goalId]` returned by `getPlan`. -/
def putPlan (d : StorageData) (goalId : String) (p : ImplementationPlan) : StorageData :=
  {d with plans := setA d.plans goalId p}

/-- `createGoal` (lines 511-521), record part. -/
def createGoal (d : StorageData) (now : Millis) (description : String) :
    StorageData × Goal :=
  let g : Goal := ⟨Nat.repr now, description, toISOString now⟩
  ({d with goals := setA d.goals g.id g}, g)

/-- `createPlan` (lines 531-541), record part. -/
def createPlan (d : StorageData) (now : Millis) (goalId : String) :
    StorageData × ImplementationPlan :=
  let p : ImplementationPlan := ⟨goalId, [], toISOString now⟩
  ({d with plans := setA d.plans goalId p}, p)

/-- The todo object literal of `addTodo` (lines 556-565): id from
`Date.now().toString()`, not complete, created/updated stamps from the
same reading, and no validation of any field. -/
def mkTodo (now : Millis) (title description : String) (complexity : Int)
    (codeExample : Option String) : Todo :=
  { id := Nat.repr now
    title := title
    description := description
    complexity := complexity
    codeExample := codeExample
    isComplete := false
    createdAt := toISOString now
    updatedAt := toISOString now }

/-- `addTodo` (lines 547-571), record part: look up the plan, construct
the todo, append it, bump the plan's `updatedAt`. -/
def addTodo (d : StorageData) (now : Millis) (goalId title description : String)
    (complexity : Int) (codeExample : Option String) :
    Except String (StorageData × Todo) :=
  match getPlan d goalId with
  | none => .error ("No plan found for goal " ++ goalId)
  | some plan =>
    let todo := mkTodo now title description complexity codeExample
    let plan' := {plan with
      todos := plan.todos ++ [todo],
      updatedAt := toISOString now}
    .ok (putPlan d goalId plan', todo)

/-- `removeTodo` (lines 573-582), record part: filter the todo out (no
error when absent) and bump the plan's `updatedAt` unconditionally. -/
def removeTodo (d : StorageData) (now : Millis) (goalId todoId : String) :
    Except String StorageData :=
  match getPlan d goalId with
  | none => .error ("No plan found for goal " ++ goalId)
  | some plan =>
    let plan' := {plan with
      todos := plan.todos.filter (fun t => t.id != todoId),
      updatedAt := toISOString now}
    .ok (putPlan d goalId plan')

/-- One `addTodo` request: the clock reading at the moment of the call,
plus the request fields. -/
structure AddReq where
  now : Millis
  title : String
  description : String
  complexity : Int
  codeExample : Option String

/-- Successive `addTodo` calls against the same plan. -/
def addTodos (goalId : String) : List AddReq → StorageData → Except String StorageData
  | [], d => .ok d
  | r :: rest, d =>
    match addTodo d r.now goalId r.title r.description r.complexity r.codeExample with
    | .error e => .error e
    | .ok (d', _) => addTodos goalId rest d'

/-! ## Concrete fixtures for closed instances -/

def goalW : Goal := ⟨"1", "build widget", "0"⟩

def planW : ImplementationPlan := ⟨"1", [], "0"⟩

/-- A record holding one goal with an empty plan. -/
def dataW : StorageData := ⟨[("1", goalW)], [("1", planW)]⟩

/-- A plan directory holding the serialization of `dataW`. -/
def dirW : DirFiles := ⟨some (.json (encodeStorageData dataW)), none, none⟩

/-- A plan directory holding the serialization of the empty record. -/
def dirEmptyRecW : DirFiles := ⟨some (.json (encodeStorageData emptyData)), none, none⟩

/-- A namespace root with two plan namespaces and no legacy file. -/
def baseW : BaseDir := ⟨true, emptyDirFiles, [("alpha", dirW), ("beta", dirEmptyRecW)]⟩

/-- An engine state with `alpha` active and its record loaded. -/
def stW : StorageState := ⟨"alpha", dataW, baseW⟩

/-- A namespace root with unsorted plan directories and a backup dir. -/
def baseListW : BaseDir :=
  ⟨true, emptyDirFiles,
    [("beta", emptyDirFiles), ("v1-backup", emptyDirFiles), ("alpha", emptyDirFiles)]⟩

/-- A V1-layout namespace root: the record file and one derived document
at the root, no subdirectories. -/
def legacyBaseW : BaseDir :=
  ⟨true, ⟨some (.json (encodeStorageData dataW)), some (.doc ⟨"main", dataW⟩), none⟩, []⟩

/-- Faults: only the backup `fs.rename` of the record file fails. -/
def renameFaultW : MigFaults :=
  ⟨false, false, fun f => f == FileId.dataJson, fun _ => false, false, fun _ => false⟩

/-- Two `addTodo` requests at distinct clock readings. -/
def reqsW : List AddReq := [⟨1, "a", "da", 1, none⟩, ⟨2, "b", "db", 2, none⟩]

/-- The record reached from `dataW` by running `reqsW`. -/
def reachedW : StorageData :=
  match addTodos "1" reqsW dataW with
  | .ok d => d
  | .error _ => emptyData

/-- The ids in the plan of the record reached from an empty record by
`createGoal`, `createPlan` and two `addTodo` calls all sharing the clock
reading 5 (two calls within the same millisecond). -/
def sameTickIds : Option (List String) :=
  let d0 := (createGoal emptyData 5 "g").1
  let d1 := (createPlan d0 5 "5").1
  match addTodo d1 5 "5" "a" "da" 1 none with
  | .error _ => none
  | .ok (d2, _) =>
    match addTodo d2 5 "5" "b" "db" 2 none with
    | .error _ => none
    | .ok (d3, _) => (getPlan d3 "5").map (fun p => p.todos.map (fun t => t.id))

/-! ## General lemmas about the embedding -/

@[simp] theorem lookupA_nil {α : Type} (k : String) :
    lookupA ([] : List (String × α)) k = none := rfl

@[simp] theorem lookupA_cons {α : Type} (k' k : String) (v : α) (rest : List (String × α)) :
    lookupA ((k', v) :: rest) k = if k' = k then some v else lookupA rest k := rfl

@[simp] theorem lookupA_setA_self {α : Type} (l : List (String × α)) (k : String) (v : α) :
    lookupA (setA l k v) k = some v := by
  induction l with
  | nil => simp [setA]
  | cons hd tl ih =>
    obtain ⟨k', v'⟩ := hd
    by_cases h : k' = k <;> simp [setA, h, ih]

theorem lookupA_setA_ne {α : Type} (l : List (String × α)) (k k₀ : String) (v : α)
    (h : k ≠ k₀) : lookupA (setA l k v) k₀ = lookupA l k₀ := by
  induction l with
  | nil => simp [setA, lookupA, h]
  | cons hd tl ih =>
    obtain ⟨k', v'⟩ := hd
    by_cases hk : k' = k
    · subst hk; simp [setA, lookupA, h]
    · simp [setA, hk, lookupA, ih]

theorem toDigitsCore_eq_decDigits :
    ∀ (fuel n : Nat) (ds : List Char), n < fuel →
      Nat.toDigitsCore 10 fuel n ds = decDigits n ++ ds := by
  intro fuel
  induction fuel with
  | zero => intro n ds h; omega
  | succ f ih =>
    intro n ds h
    by_cases h10 : n / 10 = 0
    · have hlt : n < 10 := by omega
      have hm : n % 10 = n := Nat.mod_eq_of_lt hlt
      simp [Nat.toDigitsCore, h10, decDigits, hlt, hm]
    · have hge : 10 ≤ n := by
        by_contra hc
        exact h10 (Nat.div_eq_of_lt (by omega))
      have hdf : n / 10 < f := by
        have h1 : n / 10 < n := Nat.div_lt_self (by omega) (by omega)
        omega
      have hstep : Nat.toDigitsCore 10 (f + 1) n ds =
          Nat.toDigitsCore 10 f (n / 10) (Nat.digitChar (n % 10) :: ds) := by
        simp [Nat.toDigitsCore, h10]
      rw [hstep, ih _ _ hdf]
      have hd : decDigits n = decDigits (n / 10) ++ [Nat.digitChar (n % 10)] := by
        rw [decDigits]
        simp [show ¬ n < 10 by omega]
      rw [hd, List.append_assoc]
      rfl

theorem digitChar_toNat (d : Nat) (h : d < 10) : (Nat.digitChar d).toNat = 48 + d := by
  interval_cases d <;> decide

theorem decVal_decDigits (n : Nat) : decVal (decDigits n) = n := by
  induction n using decDigits.induct with
  | case1 n h =>
    rw [decDigits]
    simp [h, decVal, List.foldl, digitChar_toNat n h]
  | case2 n h _ ih =>
    rw [decDigits]
    simp only [h, dite_false]
    have hmod : n % 10 < 10 := Nat.mod_lt _ (by omega)
    have : decVal (decDigits (n / 10) ++ [Nat.digitChar (n % 10)]) =
        10 * decVal (decDigits (n / 10)) + (n % 10) := by
      unfold decVal
      rw [List.foldl_append]
      simp [List.foldl, digitChar_toNat _ hmod]
    rw [this, ih]
    omega

theorem natRepr_injective : Function.Injective Nat.repr := by
  intro m n h
  have hdig : Nat.toDigits 10 m = Nat.toDigits 10 n := by
    have := congrArg String.data h
    simpa [Nat.repr, List.asString] using this
  have hm : Nat.toDigits 10 m = decDigits m :=
    by simpa using toDigitsCore_eq_decDigits (m + 1) m [] (by omega)
  have hn : Nat.toDigits 10 n = decDigits n :=
    by simpa using toDigitsCore_eq_decDigits (n + 1) n [] (by omega)
  have : decDigits m = decDigits n := by rw [← hm, ← hn, hdig]
  calc m = decVal (decDigits m) := (decVal_decDigits m).symm
    _ = decVal (decDigits n) := by rw [this]
    _ = n := decVal_decDigits n

@[simp] theorem decodeGoal_encodeGoal (g : Goal) : decodeGoal (encodeGoal g) = some g := by
  obtain ⟨i, d, c⟩ := g
  rfl

@[simp] theorem decodeTodo_encodeTodo (t : Todo) : decodeTodo (encodeTodo t) = some t := by
  obtain ⟨i, ti, de, cx, ce, ic, ca, ua⟩ := t
  cases ce <;> rfl

theorem decodeListWith_map {α : Type} (dec : Json → Option α) (enc : α → Json)
    (h : ∀ a, dec (enc a) = some a) (l : List α) :
    decodeListWith dec (l.map enc) = some l := by
  induction l with
  | nil => rfl
  | cons a rest ih => simp [decodeListWith, h a, ih]

theorem decodePairsWith_map {α : Type} (dec : Json → Option α) (enc : α → Json)
    (h : ∀ a, dec (enc a) = some a) (l : List (String × α)) :
    decodePairsWith dec (l.map (fun kv => (kv.1, enc kv.2))) = some l := by
  induction l with
  | nil => rfl
  | cons kv rest ih =>
    obtain ⟨k, a⟩ := kv
    simp [decodePairsWith, h a, ih]

@[simp] theorem decodePlan_encodePlan (p : ImplementationPlan) :
    decodePlan (encodePlan p) = some p := by
  obtain ⟨g, todos, u⟩ := p
  simp [decodePlan, encodePlan, getField, asStr,
    decodeListWith_map decodeTodo encodeTodo decodeTodo_encodeTodo]

/-- Serialization followed by deserialization of the record is the
identity. -/
@[simp] theorem decode_encode_storageData (d : StorageData) :
    decodeStorageData (encodeStorageData d) = some d := by
  obtain ⟨goals, plans⟩ := d
  simp [decodeStorageData, encodeStorageData, getField,
    decodePairsWith_map decodeGoal encodeGoal decodeGoal_encodeGoal,
    decodePairsWith_map decodePlan encodePlan decodePlan_encodePlan]

theorem hasDotDot_of_decomp (l1 l2 : List Char) :
    hasDotDot (l1 ++ '.' :: '.' :: l2) = true := by
  induction l1 with
  | nil => simp [hasDotDot]
  | cons c rest ih =>
    cases rest with
    | nil => simp_all [hasDotDot]
    | cons r rs => simp_all [hasDotDot]

/-- A name containing `..`, `/`, `\` or a null character trips the
unsafe-character check. -/
theorem containsUnsafe_of_bad (s : String)
    (h : (∃ l1 l2, s.data = l1 ++ '.' :: '.' :: l2) ∨ '/' ∈ s.data ∨
      '\\' ∈ s.data ∨ Char.ofNat 0 ∈ s.data) :
    containsUnsafe s = true := by
  unfold containsUnsafe
  rcases h with ⟨l1, l2, hd⟩ | h | h | h
  · rw [hd, hasDotDot_of_decomp]
    simp
  all_goals simp [List.contains, List.elem_eq_mem, h]

theorem sanitizePlanName_of_unsafe (s : String) (h : containsUnsafe s = true) :
    sanitizePlanName s = "main" := by
  unfold sanitizePlanName
  split <;> simp_all

theorem ne_main_of_unsafe (s : String) (h : containsUnsafe s = true) : s ≠ "main" := by
  intro he
  rw [he] at h
  exact absurd h (by decide)

/-! ## Filesystem lemmas -/

theorem lookupA_append_of_none {α : Type} (l1 l2 : List (String × α)) (k : String)
    (h : lookupA l1 k = none) : lookupA (l1 ++ l2) k = lookupA l2 k := by
  induction l1 with
  | nil => rfl
  | cons hd tl ih =>
    obtain ⟨k', v'⟩ := hd
    by_cases hk : k' = k
    · simp [hk] at h
    · simp only [List.cons_append, lookupA_cons, hk, if_false] at h ⊢
      exact ih h

@[simp] theorem setDir_rootFiles (b : BaseDir) (n : String) (d : DirFiles) :
    (setDir b n d).rootFiles = b.rootFiles := rfl

@[simp] theorem setDir_present (b : BaseDir) (n : String) (d : DirFiles) :
    (setDir b n d).present = b.present := rfl

@[simp] theorem getDir_setDir_self (b : BaseDir) (n : String) (d : DirFiles) :
    getDir (setDir b n d) n = some d := lookupA_setA_self _ _ _

theorem getDir_setDir_ne (b : BaseDir) (n m : String) (d : DirFiles) (h : n ≠ m) :
    getDir (setDir b n d) m = getDir b m := lookupA_setA_ne _ _ _ _ h

@[simp] theorem mkdirSub_rootFiles (b : BaseDir) (n : String) :
    (mkdirSub b n).rootFiles = b.rootFiles := rfl

@[simp] theorem mkdirSub_present (b : BaseDir) (n : String) :
    (mkdirSub b n).present = true := rfl

theorem mkdirSub_subdirs_of_isSome (b : BaseDir) (n : String)
    (h : (getDir b n).isSome) : (mkdirSub b n).subdirs = b.subdirs := by
  have h' : (lookupA b.subdirs n).isSome = true := h
  show (if (lookupA b.subdirs n).isSome then b.subdirs else _) = b.subdirs
  rw [if_pos h']

theorem mkdirSub_eq_self (b : BaseDir) (n : String) (h : (getDir b n).isSome)
    (hp : b.present = true) : mkdirSub b n = b := by
  have hs := mkdirSub_subdirs_of_isSome b n h
  obtain ⟨p, rf, sd⟩ := b
  simp only [mkdirSub] at hs ⊢
  subst hp
  simp_all

@[simp] theorem generateMarkdownFiles_dataJson (n : String) (d : StorageData) (f : DirFiles) :
    (generateMarkdownFiles n d f).dataJson = f.dataJson := by
  unfold generateMarkdownFiles
  split <;> rfl

/-- `initialize` on a state whose base has no legacy record file and whose
active plan directory holds an encoded record loads exactly that record
(after resetting the in-memory record to empty). -/
theorem initStorage_loads (flt : MigFaults) (st : StorageState) (files : DirFiles)
    (rec : StorageData)
    (hleg : st.base.rootFiles.dataJson = none)
    (hdir : getDir st.base st.currentPlan = some files)
    (hdata : files.dataJson = some (.json (encodeStorageData rec))) :
    initStorage flt st =
      .ok {st with data := rec, base := mkdirSub st.base st.currentPlan} := by
  have hv1 : isV1Project st.base = false := by
    simp [isV1Project, hleg]
  have hmk : getDir (mkdirSub st.base st.currentPlan) st.currentPlan = some files := by
    unfold getDir
    rw [mkdirSub_subdirs_of_isSome _ _ (by simp [hdir])]
    exact hdir
  unfold initStorage
  simp only [hv1, Bool.false_eq_true, if_false]
  rw [hmk]
  simp [hdata]

theorem mem_keys_of_lookupA {α : Type} (l : List (String × α)) (k : String) (v : α)
    (h : lookupA l k = some v) : k ∈ l.map (fun e => e.1) := by
  induction l with
  | nil => simp at h
  | cons hd tl ih =>
    obtain ⟨k', v'⟩ := hd
    by_cases hk : k' = k
    · subst hk
      simp
    · simp only [lookupA_cons, hk, if_false] at h
      simp [ih h]

theorem mem_listPlans (b : BaseDir) (n : String) (d : DirFiles)
    (hp : b.present = true) (hd : getDir b n = some d) (hn : n ≠ "v1-backup") :
    n ∈ listPlans b := by
  unfold listPlans
  rw [if_pos hp, List.mem_mergeSort, List.mem_filter]
  constructor
  · exact mem_keys_of_lookupA _ _ _ hd
  · simpa using hn

/-! ## Claim C2: unsafe namespace names -/

/-- C2: for every namespace-name input containing `..`, `/`, `\` or a
null character, the explicit operations `createNewPlan` (createNamespace)
and `setActivePlan` (setActiveNamespace) fail with the invalid-name error,
whereas implicit/default sanitization (`sanitizePlanName`) yields the
reserved name `"main"` instead of failing. -/
theorem unsafeName_explicit_reject_implicit_main
    (s : String) (st : StorageState) (goal : Option String) (now : Millis)
    (flt : MigFaults)
    (h : (∃ l1 l2, s.data = l1 ++ '.' :: '.' :: l2) ∨ '/' ∈ s.data ∨
      '\\' ∈ s.data ∨ Char.ofNat 0 ∈ s.data) :
    createNewPlan st s goal now = .error ("Invalid plan name: " ++ s) ∧
    setActivePlan flt st s = .error ("Invalid plan name: " ++ s) ∧
    sanitizePlanName s = "main" := by
  have hc : containsUnsafe s = true := containsUnsafe_of_bad s h
  have hs := sanitizePlanName_of_unsafe s hc
  have hne : sanitizePlanName s ≠ s := by
    rw [hs]
    exact fun he => ne_main_of_unsafe s hc he.symm
  refine ⟨?_, ?_, hs⟩
  · simp [createNewPlan, hne]
  · simp [setActivePlan, hne]

/-- Closed instance of C2 at the concrete name `"a/b"`. -/
theorem unsafeName_witness :
    createNewPlan stW "a/b" none 0 = .error ("Invalid plan name: " ++ "a/b") ∧
    setActivePlan noFaults stW "a/b" = .error ("Invalid plan name: " ++ "a/b") ∧
    sanitizePlanName "a/b" = "main" :=
  unsafeName_explicit_reject_implicit_main "a/b" stW none 0 noFaults
    (Or.inr (Or.inl (by decide)))

/-! ## Claim C9: listing namespaces -/

/-- C9: `listPlans` returns exactly the names of the subdirectories of the
namespace root excluding the reserved backup directory `v1-backup`, sorted
ascending by name, and the empty sequence when the root directory does not
exist. -/
theorem listPlans_spec (b : BaseDir) :
    (b.present = false → listPlans b = []) ∧
    (b.present = true →
      (listPlans b).Sorted (· ≤ ·) ∧
      List.Perm (listPlans b) ((b.subdirs.map (fun e => e.1)).filter (fun n => n ≠ "v1-backup"))) := by
  constructor
  · intro h
    simp [listPlans, h]
  · intro h
    have hl : listPlans b =
        ((b.subdirs.map (fun e => e.1)).filter (fun n => n ≠ "v1-backup")).mergeSort
          (fun a b => decide (a ≤ b)) := by
      simp [listPlans, h]
    constructor
    · rw [hl]
      have hp := @List.sorted_mergeSort String (fun a b : String => decide (a ≤ b))
        (fun a b c hab hbc => by
          simp only [decide_eq_true_eq] at *
          exact le_trans hab hbc)
        (fun a b => by
          simp only [Bool.or_eq_true, decide_eq_true_eq]
          exact le_total a b)
        ((b.subdirs.map (fun e => e.1)).filter (fun n => n ≠ "v1-backup"))
      exact hp.imp (fun hab => by simpa using hab)
    · rw [hl]
      exact List.mergeSort_perm _ _

/-- Closed instance of C9: a missing root yields `[]`; a root with
unsorted namespace directories and the backup directory yields their
sorted names without `v1-backup`. -/
theorem listPlans_spec_witness :
    listPlans ⟨false, emptyDirFiles, []⟩ = [] ∧
    (listPlans baseListW).Sorted (· ≤ ·) ∧
    List.Perm (listPlans baseListW)
      ((baseListW.subdirs.map (fun e => e.1)).filter (fun n => n ≠ "v1-backup")) :=
  ⟨(listPlans_spec ⟨false, emptyDirFiles, []⟩).1 rfl,
   ((listPlans_spec baseListW).2 rfl).1,
   ((listPlans_spec baseListW).2 rfl).2⟩

/-! ## Claim C6: complexity validation -/

/-- C6, the code against the claim: the storage engine's `addTodo`
performs no complexity validation.  A request with complexity 11 succeeds
and appends the todo to the plan instead of failing with a validation
error (the 0-10 bound exists only in the dispatcher's declarative input
schema, which is not enforced by the engine). -/
theorem addTodo_accepts_complexity_eleven :
    (addTodo dataW 1 "1" "t" "d" 11 none).toOption.map
      (fun r => (r.2.complexity,
        (getPlan r.1 "1").map (fun p => p.todos.map (fun t => t.complexity))))
      = some (11, some [11]) := by decide

/-! ## Claim C7: removing a nonexistent todo -/

/-- C7 counterexample: `removeTodo` with a `todoId` absent from the plan
succeeds and leaves the todo sequence unchanged, but it DOES alter the
plan's `updatedAt`: the stored stamp is `"0"`, the call happens at clock
reading 1, and the stamp afterwards is `"1"`. -/
theorem removeTodo_missing_alters_updatedAt :
    (getPlan dataW "1").map (fun p => p.updatedAt) = some "0" ∧
    (removeTodo dataW 1 "1" "zzz").toOption.map
      (fun d => (getPlan d "1").map (fun p => (p.todos, p.updatedAt)))
      = some (some ([], "1")) ∧
    ("1" : String) ≠ "0" := by
  refine ⟨by decide, by decide, by decide⟩

/-- C7 (amended): `removeTodo` on a nonexistent `todoId` succeeds without
error (idempotent delete) and leaves the plan's todo sequence unchanged,
but it sets the plan's `updatedAt` to the current clock reading instead of
leaving it unaltered. -/
theorem removeTodo_missing_noop_except_updatedAt
    (d : StorageData) (now : Millis) (goalId todoId : String)
    (plan : ImplementationPlan) (hp : getPlan d goalId = some plan)
    (hmiss : ∀ t ∈ plan.todos, t.id ≠ todoId) :
    removeTodo d now goalId todoId =
      .ok (putPlan d goalId {plan with updatedAt := toISOString now}) := by
  have hf : plan.todos.filter (fun t => t.id != todoId) = plan.todos :=
    List.filter_eq_self.mpr (fun t ht => by
      simpa [bne_iff_ne] using hmiss t ht)
  simp [removeTodo, hp, hf]

/-- Closed instance of the amended C7 at a concrete record. -/
theorem removeTodo_missing_noop_witness :
    removeTodo dataW 1 "1" "zzz" =
      .ok (putPlan dataW "1" {planW with updatedAt := toISOString 1}) :=
  removeTodo_missing_noop_except_updatedAt dataW 1 "1" "zzz" planW rfl
    (by simp [planW])

/-! ## Claim C10: freshly created todos -/

/-- C10: every todo returned by `addTodo` is created with `isComplete`
false and `createdAt` equal to `updatedAt` (both `new Date()` calls of the
object literal observe the same clock reading), and it is appended at the
end of the plan's todo sequence. -/
theorem addTodo_fresh_spec
    (d : StorageData) (now : Millis) (goalId title description : String)
    (complexity : Int) (codeExample : Option String)
    (plan : ImplementationPlan) (hp : getPlan d goalId = some plan) :
    ∃ t, addTodo d now goalId title description complexity codeExample =
        .ok (putPlan d goalId
          {plan with todos := plan.todos ++ [t], updatedAt := toISOString now}, t) ∧
      t.isComplete = false ∧ t.createdAt = t.updatedAt :=
  ⟨mkTodo now title description complexity codeExample,
    by simp [addTodo, hp], rfl, rfl⟩

/-- Closed instance of C10 at a concrete record. -/
theorem addTodo_fresh_witness :
    ∃ t, addTodo dataW 2 "1" "t" "d" 3 none =
        .ok (putPlan dataW "1"
          {planW with todos := planW.todos ++ [t], updatedAt := toISOString 2}, t) ∧
      t.isComplete = false ∧ t.createdAt = t.updatedAt :=
  addTodo_fresh_spec dataW 2 "1" "t" "d" 3 none planW rfl

/-! ## Claim C8: todo id uniqueness -/

/-- C8 counterexample: two successive `addTodo` calls within the same
millisecond (`Date.now()` returning 5 twice) both derive the id `"5"`: a
reachable record (empty record, `createGoal`, `createPlan`, two `addTodo`
calls) whose plan's todo sequence has a duplicate id. -/
theorem duplicate_ids_same_tick :
    sameTickIds = some ["5", "5"] ∧ ¬ (["5", "5"] : List String).Nodup :=
  ⟨by decide, by decide⟩

theorem addTodos_todos (goalId : String) (reqs : List AddReq) (d : StorageData)
    (plan : ImplementationPlan) (hp : getPlan d goalId = some plan) :
    ∃ d' p', addTodos goalId reqs d = .ok d' ∧ getPlan d' goalId = some p' ∧
      p'.todos = plan.todos ++
        reqs.map (fun r => mkTodo r.now r.title r.description r.complexity r.codeExample) := by
  induction reqs generalizing d plan with
  | nil => exact ⟨d, plan, rfl, hp, by simp⟩
  | cons r rest ih =>
    set t := mkTodo r.now r.title r.description r.complexity r.codeExample with ht
    set plan1 : ImplementationPlan :=
      {plan with todos := plan.todos ++ [t], updatedAt := toISOString r.now} with hplan1
    have hp1 : getPlan (putPlan d goalId plan1) goalId = some plan1 := by
      simp [getPlan, putPlan]
    obtain ⟨d', p', hrun, hget, htodos⟩ := ih (putPlan d goalId plan1) plan1 hp1
    refine ⟨d', p', ?_, hget, ?_⟩
    · simp [addTodos, addTodo, hp, ← ht, ← hplan1, hrun]
    · rw [htodos, hplan1]
      simp

/-- C8 (amended): todo ids are unique within a plan provided the creating
`addTodo` calls happened at pairwise distinct `Date.now()` readings;
within the same millisecond the timestamp-derived ids collide (see the
counterexample). -/
theorem addTodo_ids_nodup (goalId : String) (reqs : List AddReq) (d d' : StorageData)
    (plan : ImplementationPlan) (hp : getPlan d goalId = some plan)
    (hempty : plan.todos = [])
    (hnd : (reqs.map (fun r => r.now)).Nodup)
    (hrun : addTodos goalId reqs d = .ok d') :
    ∃ p', getPlan d' goalId = some p' ∧ (p'.todos.map (fun t => t.id)).Nodup := by
  obtain ⟨d₀, p', hrun₀, hget, htodos⟩ := addTodos_todos goalId reqs d plan hp
  rw [hrun₀] at hrun
  cases hrun
  refine ⟨p', hget, ?_⟩
  rw [htodos, hempty]
  simp only [List.nil_append, List.map_map]
  have : ((fun t : Todo => t.id) ∘ fun r : AddReq =>
      mkTodo r.now r.title r.description r.complexity r.codeExample) =
      (fun r : AddReq => Nat.repr r.now) := rfl
  rw [this]
  have : (fun r : AddReq => Nat.repr r.now) =
      (Nat.repr ∘ fun r : AddReq => r.now) := rfl
  rw [this, ← List.map_map]
  exact hnd.map (fun a b hab => natRepr_injective hab)

/-- Closed instance of the amended C8: two requests at distinct readings
give a plan whose todo ids are distinct. -/
theorem addTodo_ids_nodup_witness :
    ∃ p', getPlan reachedW "1" = some p' ∧ (p'.todos.map (fun t => t.id)).Nodup :=
  addTodo_ids_nodup "1" reqsW dataW reachedW planW rfl rfl (by decide) rfl

/-! ## Claim C5: save / initialize round trip -/

/-- C5: for every structured record, `save` followed by a fresh
`initialize` on the same namespace reproduces an identical structured
record (serialization then deserialization of the record file is the
identity on goals, plans and todos). -/
theorem save_init_roundtrip (flt : MigFaults) (st : StorageState) (files : DirFiles)
    (hdir : getDir st.base st.currentPlan = some files)
    (hleg : st.base.rootFiles.dataJson = none) :
    ∃ st', (save st).bind (initStorage flt) = .ok st' ∧ st'.data = st.data := by
  set fNew : DirFiles :=
    {files with dataJson := some (.json (encodeStorageData st.data))} with hfNew
  set fGen : DirFiles := generateMarkdownFiles st.currentPlan st.data fNew with hfGen
  set st1 : StorageState := {st with base := setDir st.base st.currentPlan fGen} with hst1
  have hsave : save st = .ok st1 := by
    unfold save
    rw [hdir]
  have hgen : fGen.dataJson = some (.json (encodeStorageData st.data)) := by
    rw [hfGen, generateMarkdownFiles_dataJson, hfNew]
  have hload := initStorage_loads flt st1 fGen st.data
    (by rw [hst1]; show (setDir st.base _ _).rootFiles.dataJson = none;
        rw [setDir_rootFiles, hleg])
    (by rw [hst1]; exact getDir_setDir_self _ _ _)
    hgen
  refine ⟨{st1 with data := st.data, base := mkdirSub st1.base st1.currentPlan}, ?_, rfl⟩
  rw [hsave]
  show initStorage flt st1 = _
  exact hload

/-- Closed instance of C5 at a concrete state. -/
theorem save_init_roundtrip_witness :
    ∃ st', (save stW).bind (initStorage noFaults) = .ok st' ∧ st'.data = stW.data :=
  save_init_roundtrip noFaults stW dirW rfl rfl

/-! ## Claim C3: switching namespaces does not leak -/

/-- C3: switching the active namespace from A to B and back to A yields
A's structured record unchanged: the round trip ends with A's record in
memory and the filesystem as before, so no goal, plan or todo from B's
record is observable after switching back to A (`initialize` resets the
in-memory record to empty before reading the new namespace's file). -/
theorem switch_roundtrip
    (flt : MigFaults) (st : StorageState) (A B : String)
    (dA dB : DirFiles) (recA recB : StorageData)
    (hA : getDir st.base A = some dA) (hB : getDir st.base B = some dB)
    (hdA : dA.dataJson = some (.json (encodeStorageData recA)))
    (hdB : dB.dataJson = some (.json (encodeStorageData recB)))
    (hvA : sanitizePlanName A = A) (hvB : sanitizePlanName B = B)
    (hbA : A ≠ "v1-backup") (hbB : B ≠ "v1-backup")
    (hpres : st.base.present = true)
    (hleg : st.base.rootFiles.dataJson = none) :
    (setActivePlan flt st B).bind (fun s => setActivePlan flt s A) =
      .ok ⟨A, recA, st.base⟩ := by
  obtain ⟨cp0, dat0, b0⟩ := st
  have hA : getDir b0 A = some dA := hA
  have hB : getDir b0 B = some dB := hB
  have hpres : b0.present = true := hpres
  have hleg : b0.rootFiles.dataJson = none := hleg
  have hmkA : mkdirSub b0 A = b0 := mkdirSub_eq_self b0 A (by rw [hA]; rfl) hpres
  have hmkB : mkdirSub b0 B = b0 := mkdirSub_eq_self b0 B (by rw [hB]; rfl) hpres
  have hmemA : A ∈ listPlans b0 := mem_listPlans b0 A dA hpres hA hbA
  have hmemB : B ∈ listPlans b0 := mem_listPlans b0 B dB hpres hB hbB
  have hsetB : setActivePlan flt ⟨cp0, dat0, b0⟩ B = initStorage flt ⟨B, dat0, b0⟩ := by
    unfold setActivePlan
    rw [if_neg (fun hne => hne hvB), if_pos hmemB, hvB]
  have hinitB : initStorage flt ⟨B, dat0, b0⟩ = .ok ⟨B, recB, b0⟩ := by
    have h1 := initStorage_loads flt ⟨B, dat0, b0⟩ dB recB hleg hB hdB
    rw [hmkB] at h1
    exact h1
  have hsetA : setActivePlan flt ⟨B, recB, b0⟩ A = initStorage flt ⟨A, recB, b0⟩ := by
    unfold setActivePlan
    rw [if_neg (fun hne => hne hvA), if_pos hmemA, hvA]
  have hinitA : initStorage flt ⟨A, recB, b0⟩ = .ok ⟨A, recA, b0⟩ := by
    have h1 := initStorage_loads flt ⟨A, recB, b0⟩ dA recA hleg hA hdA
    rw [hmkA] at h1
    exact h1
  rw [hsetB, hinitB]
  show setActivePlan flt ⟨B, recB, b0⟩ A = _
  rw [hsetA, hinitA]

/-- Closed instance of C3: switch `alpha` → `beta` → `alpha` on a concrete
state; `alpha`'s record comes back intact. -/
theorem switch_roundtrip_witness :
    (setActivePlan noFaults stW "beta").bind
        (fun s => setActivePlan noFaults s "alpha") =
      .ok ⟨"alpha", dataW, stW.base⟩ :=
  switch_roundtrip noFaults stW "alpha" "beta" dirW dirEmptyRecW dataW emptyData
    rfl rfl rfl rfl (by decide) (by decide) (by decide) (by decide) rfl rfl

/-! ## Migration lemmas -/

theorem lookupA_append_of_some {α : Type} (l1 l2 : List (String × α)) (k : String)
    (v : α) (h : lookupA l1 k = some v) : lookupA (l1 ++ l2) k = some v := by
  induction l1 with
  | nil => simp at h
  | cons hd tl ih =>
    obtain ⟨k', v'⟩ := hd
    by_cases hk : k' = k
    · simp only [lookupA_cons, hk, if_true] at h
      simp [hk, h]
    · simp only [lookupA_cons, hk, if_false] at h
      simp only [List.cons_append, lookupA_cons, hk, if_false]
      exact ih h

theorem setSlot_dataJson_of_ne (d : DirFiles) (f : FileId) (v : Option FileContent)
    (h : f ≠ FileId.dataJson) : (setSlot d f v).dataJson = d.dataJson := by
  cases f
  · exact absurd rfl h
  · rfl
  · rfl

theorem mkdirSub_subdirs_of_none (b : BaseDir) (n : String)
    (h : getDir b n = none) :
    (mkdirSub b n).subdirs = b.subdirs ++ [(n, emptyDirFiles)] := by
  have h' : (lookupA b.subdirs n).isSome = false := by
    rw [show lookupA b.subdirs n = getDir b n from rfl, h]
    rfl
  show (if (lookupA b.subdirs n).isSome then _ else _) = _
  simp [h']

/-- The backup loop over optional files never aborts and never touches the
record-file slot at the root. -/
theorem backupPhase_optionals (flt : MigFaults) (l : List (FileId × Bool)) :
    ∀ b : BaseDir, (∀ p ∈ l, p.2 = false ∧ p.1 ≠ FileId.dataJson) →
      ∃ b' ops, backupPhase flt l b = (b', some ops) ∧
        b'.rootFiles.dataJson = b.rootFiles.dataJson := by
  induction l with
  | nil => exact fun b _ => ⟨b, [], rfl, rfl⟩
  | cons p rest ih =>
    intro b hopt
    obtain ⟨f, req⟩ := p
    obtain ⟨hreq, hne⟩ := hopt (f, req) (List.mem_cons_self _ _)
    subst hreq
    have hopt' : ∀ p ∈ rest, p.2 = false ∧ p.1 ≠ FileId.dataJson :=
      fun p hp => hopt p (List.mem_cons_of_mem _ hp)
    unfold backupPhase
    split
    · next content bd h1 h2 h3 =>
      dsimp only
      obtain ⟨b', ops, hrun, hdj⟩ := ih
        (setDir {b with rootFiles := setSlot b.rootFiles f none}
          "v1-backup" (setSlot bd f (some content))) hopt'
      rw [hrun]
      refine ⟨b', f :: ops, rfl, ?_⟩
      rw [hdj]
      exact setSlot_dataJson_of_ne b.rootFiles f none hne
    · simp only [Bool.false_eq_true, if_false]
      exact ih b hopt'

/-- A failing copy phase always runs the rollback (the code calls
`rollbackMigration` before rethrowing a copy failure). -/
theorem copyPhase_not_ok_rollbackRan (flt : MigFaults) (allOps : List FileId) :
    ∀ (ops : List FileId) (b : BaseDir),
      (copyPhase flt allOps ops b).2.1 = false →
      (copyPhase flt allOps ops b).2.2 = true := by
  intro ops
  induction ops with
  | nil =>
    intro b h
    simp [copyPhase] at h
  | cons f rest ih =>
    intro b h
    rcases h1 : getDir b "v1-backup" with _ | bd
    · have he : copyPhase flt allOps (f :: rest) b =
          (rollbackMigration flt allOps b, false, true) := by
        simp only [copyPhase, h1]
      rw [he]
    · rcases h2 : getDir b "main" with _ | md
      · have he : copyPhase flt allOps (f :: rest) b =
            (rollbackMigration flt allOps b, false, true) := by
          simp only [copyPhase, h1, h2]
        rw [he]
      · rcases h3 : getSlot bd f with _ | c
        · have he : copyPhase flt allOps (f :: rest) b =
              (rollbackMigration flt allOps b, false, true) := by
            simp only [copyPhase, h1, h2, h3]
          rw [he]
        · cases h4 : flt.copy f
          · have he : copyPhase flt allOps (f :: rest) b =
                copyPhase flt allOps rest (setDir b "main" (setSlot md f (some c))) := by
              simp only [copyPhase, h1, h2, h3, h4]
            rw [he] at h ⊢
            exact ih _ h
          · have he : copyPhase flt allOps (f :: rest) b =
                (rollbackMigration flt allOps b, false, true) := by
              simp only [copyPhase, h1, h2, h3, h4]
            rw [he]

/-- A successful copy phase touches only the `main` and backup
directories, never the root files. -/
theorem copyPhase_ok_rootFiles (flt : MigFaults) (allOps : List FileId) :
    ∀ (ops : List FileId) (b : BaseDir),
      (copyPhase flt allOps ops b).2.1 = true →
      (copyPhase flt allOps ops b).1.rootFiles = b.rootFiles := by
  intro ops
  induction ops with
  | nil =>
    intro b _
    rfl
  | cons f rest ih =>
    intro b h
    rcases h1 : getDir b "v1-backup" with _ | bd
    · have he : copyPhase flt allOps (f :: rest) b =
          (rollbackMigration flt allOps b, false, true) := by
        simp only [copyPhase, h1]
      rw [he] at h
      simp at h
    · rcases h2 : getDir b "main" with _ | md
      · have he : copyPhase flt allOps (f :: rest) b =
            (rollbackMigration flt allOps b, false, true) := by
          simp only [copyPhase, h1, h2]
        rw [he] at h
        simp at h
      · rcases h3 : getSlot bd f with _ | c
        · have he : copyPhase flt allOps (f :: rest) b =
              (rollbackMigration flt allOps b, false, true) := by
            simp only [copyPhase, h1, h2, h3]
          rw [he] at h
          simp at h
        · cases h4 : flt.copy f
          · have he : copyPhase flt allOps (f :: rest) b =
                copyPhase flt allOps rest (setDir b "main" (setSlot md f (some c))) := by
              simp only [copyPhase, h1, h2, h3, h4]
            rw [he] at h ⊢
            rw [ih _ h]
            rfl
          · have he : copyPhase flt allOps (f :: rest) b =
                (rollbackMigration flt allOps b, false, true) := by
              simp only [copyPhase, h1, h2, h3, h4]
            rw [he] at h
            simp at h

/-- The backup loop when the required record file is present and its
rename succeeds: the record file moves into the backup directory and the
two optional files are processed; the loop reports the record file moved
first and the root no longer holds the record file. -/
theorem backupPhase_data_step (flt : MigFaults) (b : BaseDir) (c : FileContent)
    (bd : DirFiles)
    (hslot : getSlot b.rootFiles FileId.dataJson = some c)
    (hrn : flt.rename FileId.dataJson = false)
    (hback : getDir b "v1-backup" = some bd) :
    ∃ b' ops, backupPhase flt filesToMigrate b = (b', some (FileId.dataJson :: ops)) ∧
      b'.rootFiles.dataJson = none := by
  obtain ⟨b', ops, hrun, hdj⟩ := backupPhase_optionals flt
    [(FileId.planMd, false), (FileId.tasksMd, false)]
    (setDir {b with rootFiles := setSlot b.rootFiles FileId.dataJson none}
      "v1-backup" (setSlot bd FileId.dataJson (some c)))
    (by decide)
  refine ⟨b', ops, ?_, ?_⟩
  · show backupPhase flt ((FileId.dataJson, true) ::
      [(FileId.planMd, false), (FileId.tasksMd, false)]) b = _
    unfold backupPhase
    simp only [hslot, hrn, hback]
    rw [hrun]
  · rw [hdj]
    rfl

/-- The backup loop when the required record file cannot be backed up
(absent, or its rename fails): the loop aborts with nothing moved. -/
theorem backupPhase_data_fail (flt : MigFaults) (b : BaseDir)
    (h : getSlot b.rootFiles FileId.dataJson = none ∨
      flt.rename FileId.dataJson = true) :
    backupPhase flt filesToMigrate b = (b, none) := by
  show backupPhase flt ((FileId.dataJson, true) ::
    [(FileId.planMd, false), (FileId.tasksMd, false)]) b = _
  unfold backupPhase
  rcases h with h | h
  · simp [h]
  · rcases hs : getSlot b.rootFiles FileId.dataJson with _ | c
    · simp [hs]
    · simp [hs, h]

/-- Exhaustive behavior of one migration run on a clean pre-migration
root: either it fails before moving any file (no rollback, root files
untouched, `main` at most an empty directory), or it fails in the copy
phase having run the rollback, or it succeeds and the legacy record file
is gone from the root. -/
theorem migrate_cases (flt : MigFaults) (b : BaseDir)
    (hmain : getDir b "main" = none) (hback : getDir b "v1-backup" = none) :
    ((migrateV1ToV2 flt b).success = false ∧
     (migrateV1ToV2 flt b).rollbackRan = false ∧
     (migrateV1ToV2 flt b).fs.rootFiles = b.rootFiles ∧
     (getDir (migrateV1ToV2 flt b).fs "main" = none ∨
      getDir (migrateV1ToV2 flt b).fs "main" = some emptyDirFiles)) ∨
    ((migrateV1ToV2 flt b).success = false ∧
     (migrateV1ToV2 flt b).rollbackRan = true) ∨
    ((migrateV1ToV2 flt b).success = true ∧
     (migrateV1ToV2 flt b).fs.rootFiles.dataJson = none) := by
  cases hf1 : flt.mkdirBackup with
  | true =>
    left
    have hmig : migrateV1ToV2 flt b = ⟨b, false, false⟩ := by
      simp [migrateV1ToV2, hf1]
    rw [hmig]
    exact ⟨rfl, rfl, rfl, Or.inl hmain⟩
  | false =>
    cases hf2 : flt.mkdirMain with
    | true =>
      left
      have hmig : migrateV1ToV2 flt b = ⟨mkdirSub b "v1-backup", false, false⟩ := by
        simp [migrateV1ToV2, hf1, hf2]
      have hm1 : getDir (mkdirSub b "v1-backup") "main" = none := by
        unfold getDir
        rw [mkdirSub_subdirs_of_none b _ hback, lookupA_append_of_none _ _ _ hmain]
        rfl
      rw [hmig]
      exact ⟨rfl, rfl, rfl, Or.inl hm1⟩
    | false =>
      have hb1main : getDir (mkdirSub b "v1-backup") "main" = none := by
        unfold getDir
        rw [mkdirSub_subdirs_of_none b _ hback, lookupA_append_of_none _ _ _ hmain]
        rfl
      have hb1back : getDir (mkdirSub b "v1-backup") "v1-backup" = some emptyDirFiles := by
        unfold getDir
        rw [mkdirSub_subdirs_of_none b _ hback, lookupA_append_of_none _ _ _ hback]
        rfl
      have hb2back : getDir (mkdirSub (mkdirSub b "v1-backup") "main") "v1-backup" =
          some emptyDirFiles := by
        unfold getDir
        rw [mkdirSub_subdirs_of_none _ _ hb1main]
        exact lookupA_append_of_some _ _ _ _ hb1back
      have hb2main : getDir (mkdirSub (mkdirSub b "v1-backup") "main") "main" =
          some emptyDirFiles := by
        unfold getDir
        rw [mkdirSub_subdirs_of_none _ _ hb1main, lookupA_append_of_none _ _ _ hb1main]
        rfl
      rcases hdj : b.rootFiles.dataJson with _ | c
      · left
        have hbp := backupPhase_data_fail flt
          (mkdirSub (mkdirSub b "v1-backup") "main") (Or.inl hdj)
        have hmig : migrateV1ToV2 flt b =
            ⟨mkdirSub (mkdirSub b "v1-backup") "main", false, false⟩ := by
          simp [migrateV1ToV2, hf1, hf2, hbp]
        rw [hmig]
        exact ⟨rfl, rfl, rfl, Or.inr hb2main⟩
      · cases hrn : flt.rename FileId.dataJson with
        | true =>
          left
          have hbp := backupPhase_data_fail flt
            (mkdirSub (mkdirSub b "v1-backup") "main") (Or.inr hrn)
          have hmig : migrateV1ToV2 flt b =
              ⟨mkdirSub (mkdirSub b "v1-backup") "main", false, false⟩ := by
            simp [migrateV1ToV2, hf1, hf2, hbp]
          rw [hmig]
          exact ⟨rfl, rfl, rfl, Or.inr hb2main⟩
        | false =>
          obtain ⟨b4, ops4, hbp, hdjnone⟩ := backupPhase_data_step flt
            (mkdirSub (mkdirSub b "v1-backup") "main") c emptyDirFiles hdj hrn hb2back
          rcases hcp : copyPhase flt (FileId.dataJson :: ops4)
            (FileId.dataJson :: ops4) b4 with ⟨b5, ok, rb⟩
          have hmig : migrateV1ToV2 flt b = ⟨b5, ok, rb⟩ := by
            simp [migrateV1ToV2, hf1, hf2, hbp, hcp]
          cases hok : ok with
          | false =>
            right; left
            have hfail : (copyPhase flt (FileId.dataJson :: ops4)
                (FileId.dataJson :: ops4) b4).2.1 = false := by
              rw [hcp, hok]
            have hrb := copyPhase_not_ok_rollbackRan flt _ _ b4 hfail
            rw [hcp] at hrb
            rw [hmig, hok]
            exact ⟨rfl, hrb⟩
          | true =>
            right; right
            have hsucc : (copyPhase flt (FileId.dataJson :: ops4)
                (FileId.dataJson :: ops4) b4).2.1 = true := by
              rw [hcp, hok]
            have hroot := copyPhase_ok_rootFiles flt _ _ b4 hsucc
            rw [hcp] at hroot
            rw [hmig, hok]
            refine ⟨rfl, ?_⟩
            show b5.rootFiles.dataJson = none
            rw [show b5.rootFiles = b4.rootFiles from hroot, hdjnone]

/-! ## Claim C1: rollback on migration failure -/

/-- C1 counterexample: when backing up the required record file fails
(the `fs.rename` into the backup directory fails), the migration fails
WITHOUT running the rollback, and it leaves behind the `main` directory it
created while the legacy record file is still at the root — the rollback
does not always run before `MigrationFailure` is rethrown. -/
theorem migration_fail_no_rollback_cex :
    (migrateV1ToV2 renameFaultW legacyBaseW).success = false ∧
    (migrateV1ToV2 renameFaultW legacyBaseW).rollbackRan = false ∧
    getDir (migrateV1ToV2 renameFaultW legacyBaseW).fs "main" = some emptyDirFiles ∧
    isV1Project (migrateV1ToV2 renameFaultW legacyBaseW).fs = true :=
  ⟨rfl, rfl, rfl, rfl⟩

/-- C1 (amended): when the migration fails, the rollback runs before the
error is rethrown only for copy-phase failures; for earlier failures
(directory creation, backing up the record file) no rollback runs, but at
that point no file has been moved: every file is still at its legacy root
location and the `main` directory is absent or empty.  (The rollback
itself is best-effort: its own failures are swallowed, so it does not
guarantee a fully-legacy state.) -/
theorem migrate_fail_rollback_or_untouched (flt : MigFaults) (b : BaseDir)
    (hmain : getDir b "main" = none) (hback : getDir b "v1-backup" = none)
    (hfail : (migrateV1ToV2 flt b).success = false) :
    (migrateV1ToV2 flt b).rollbackRan = true ∨
      ((migrateV1ToV2 flt b).fs.rootFiles = b.rootFiles ∧
       (getDir (migrateV1ToV2 flt b).fs "main" = none ∨
        getDir (migrateV1ToV2 flt b).fs "main" = some emptyDirFiles)) := by
  rcases migrate_cases flt b hmain hback with ⟨_, _, h3, h4⟩ | ⟨_, h2⟩ | ⟨h1, _⟩
  · exact Or.inr ⟨h3, h4⟩
  · exact Or.inl h2
  · simp [h1] at hfail

/-- Closed instance of the amended C1 at the concrete faulty run. -/
theorem migrate_fail_rollback_or_untouched_witness :
    (migrateV1ToV2 renameFaultW legacyBaseW).rollbackRan = true ∨
      ((migrateV1ToV2 renameFaultW legacyBaseW).fs.rootFiles = legacyBaseW.rootFiles ∧
       (getDir (migrateV1ToV2 renameFaultW legacyBaseW).fs "main" = none ∨
        getDir (migrateV1ToV2 renameFaultW legacyBaseW).fs "main" =
          some emptyDirFiles)) :=
  migrate_fail_rollback_or_untouched renameFaultW legacyBaseW rfl rfl rfl

/-! ## Claim C4: migration idempotence -/

/-- C4: after a successful migration the legacy record file is absent from
the namespace root, so the V1 detection returns false and the migration
step of a second `initialize` run leaves the filesystem — in particular
the content of the `main` namespace directory — unchanged. -/
theorem migrate_success_idempotent (flt flt2 : MigFaults) (b : BaseDir)
    (hmain : getDir b "main" = none) (hback : getDir b "v1-backup" = none)
    (hok : (migrateV1ToV2 flt b).success = true) :
    isV1Project (migrateV1ToV2 flt b).fs = false ∧
    migrationStep flt2 (migrateV1ToV2 flt b).fs = (migrateV1ToV2 flt b).fs := by
  rcases migrate_cases flt b hmain hback with ⟨h1, _⟩ | ⟨h1, _⟩ | ⟨_, h2⟩
  · simp [h1] at hok
  · simp [h1] at hok
  · have hv : isV1Project (migrateV1ToV2 flt b).fs = false := by
      simp [isV1Project, h2]
    exact ⟨hv, by simp [migrationStep, hv]⟩

/-- Closed instance of C4: the fault-free migration of a concrete legacy
root succeeds, detection afterwards is false and the second-run migration
step is the identity. -/
theorem migrate_success_idempotent_witness :
    (migrateV1ToV2 noFaults legacyBaseW).success = true ∧
    isV1Project (migrateV1ToV2 noFaults legacyBaseW).fs = false ∧
    migrationStep noFaults (migrateV1ToV2 noFaults legacyBaseW).fs =
      (migrateV1ToV2 noFaults legacyBaseW).fs :=
  ⟨rfl, (migrate_success_idempotent noFaults noFaults legacyBaseW rfl rfl rfl).1,
    (migrate_success_idempotent noFaults noFaults legacyBaseW rfl rfl rfl).2⟩

end PlanStorage
